import Mathlib

/-!
# Verification of `py_zerox/zerox/core/zerox.py`

A shallow embedding of the `zerox` pipeline orchestrator from
`src/py_zerox/zerox/core/zerox.py`, together with proofs about its observable
behaviour: page ordering under concurrency, token accounting, file-name
sanitisation, error handling, persistence and cleanup.

External collaborators that are not part of this repository's source
(`process_page`, `process_pages_in_batches`, `download_file`, the rasterizer
and the filesystem) are modelled explicitly; definitions modelled from the
specification rather than from source code say so in their doc comment.
-/

set_option autoImplicit false

namespace Zerox

/-! ## Basic data types (`zerox/core/types.py`, §3 of the spec) -/

/-- A per-page record of the run result: content, 1-based page number and the
derived content length (`Page` in `zerox/core/types.py`). -/
structure Page where
  content : String
  page : Nat
  content_length : Nat
  deriving Repr, DecidableEq

/-- The structured run result (`ZeroxOutput` in `zerox/core/types.py`):
elapsed milliseconds, sanitized document name, token totals and the ordered
page records. -/
structure ZeroxOutput where
  completion_time : Nat
  file_name : String
  input_tokens : Nat
  output_tokens : Nat
  pages : List Page
  deriving Repr, DecidableEq

/-- The fatal error raised by `zerox` (`FileUnavailable` in `zerox/errors`). -/
inductive ZeroxError where
  | FileUnavailable
  deriving Repr, DecidableEq

/-! ## String and path helpers

Models of the Python standard-library calls used by `zerox.py`
(`os.path.basename`, `os.path.splitext`, `str.isalnum`, `str.lower`,
`str.endswith`, `"\n\n".join`). All are structural so that concrete runs
evaluate by `decide`/`rfl`. -/

/-- Split a character list at every occurrence of `c` (helper for
`os.path.basename`). -/
def splitOnCharAux (c : Char) : List Char → List Char → List (List Char)
  | [], acc => [acc.reverse]
  | x :: xs, acc =>
    if x = c then acc.reverse :: splitOnCharAux c xs []
    else splitOnCharAux c xs (x :: acc)

/-- Model of `os.path.basename`: the part of the path after the last `/`. -/
def basename (p : String) : String :=
  ⟨(splitOnCharAux '/' p.data []).getLastD []⟩

/-- Index of the last `.` in `cs` that has some non-dot character before it
(the split point used by `os.path.splitext`). -/
def lastDotIdx (cs : List Char) : Option Nat :=
  ((List.range cs.length).filter (fun i =>
    cs.getD i ' ' == '.' &&
      (List.range i).any (fun j => cs.getD j ' ' != '.'))).getLast?

/-- Model of `os.path.splitext(...)[0]`: everything before the extension dot,
or the whole name when there is no extension. -/
def splitextRoot (s : String) : String :=
  match lastDotIdx s.data with
  | some i => ⟨s.data.take i⟩
  | none => s

/-- The per-character sanitisation step of `zerox.py` line 82:
`c.lower() if c.isalnum() else "_"`. -/
def sanitizeChar (c : Char) : Char :=
  if c.isAlphanum then c.toLower else '_'

/-- The file-name sanitisation of `zerox.py` line 82:
`"".join(c.lower() if c.isalnum() else "_" for c in raw_file_name)`. -/
def sanitize (s : String) : String :=
  ⟨s.data.map sanitizeChar⟩

/-- Model of `str.endswith(".png")` from `zerox.py` line 91. -/
def hasPngExt (f : String) : Bool :=
  List.isSuffixOf ".png".data f.data

/-- Model of Python `sep.join(parts)` (used with `sep = "\n\n"` at
`zerox.py` line 134). -/
def joinSep (sep : String) : List String → String
  | [] => ""
  | [s] => s
  | s :: rest => s ++ sep ++ joinSep sep rest

/-! ## Filesystem model

`zerox.py` touches the filesystem through `aiofiles.os.makedirs`,
`aiofiles.open(...,"w")` and `shutil.rmtree`. We model the relevant state as
a list of existing directories and an association list of file contents. -/

/-- Is `q` the directory `p` itself or a path strictly inside it? -/
def underOrEq (p q : String) : Bool :=
  q == p || List.isPrefixOf (p ++ "/").data q.data

/-- Filesystem state: existing directories and file contents. -/
structure Fs where
  dirs : List String
  files : List (String × String)
  deriving Repr, DecidableEq

/-- Model of `makedirs(p, exist_ok=True)`: ensure the directory exists. -/
def Fs.makedirs (fs : Fs) (p : String) : Fs :=
  { fs with dirs := if fs.dirs.contains p then fs.dirs else p :: fs.dirs }

/-- Model of `open(p, "w"); write(c)`: replace any file at `p` with content
`c`. -/
def Fs.writeFile (fs : Fs) (p c : String) : Fs :=
  { fs with files := (p, c) :: fs.files.filter (fun kv => kv.1 != p) }

/-- Model of `shutil.rmtree(p)`: remove the directory `p` and everything
under it. -/
def Fs.rmtree (fs : Fs) (p : String) : Fs :=
  { dirs := fs.dirs.filter (fun d => !underOrEq p d),
    files := fs.files.filter (fun kv => !underOrEq p kv.1) }

/-! ## The page model and the page processor

`process_page` lives in `zerox/processor`, which is not under `src/`; it is
modelled from the spec. The behaviour of the vision model on a page is an
abstract function of the page image and the prior-page context. -/

/-- Abstract behaviour of the vision model on one page image given the
prior-page context: `some (content, input_tokens, output_tokens)` on success,
`none` when the page fails (spec §4.2: a failing page contributes no
content). -/
structure PageModel where
  run : String → String → Option (String × Nat × Nat)

/-- Modelled from the spec: `process_page` from `zerox/processor` is not under
`src/`. Per §4.2 its contract is
`process(image, model_adapter, prior_context?) ->
 (page_markdown, input_tokens, output_tokens, updated_prior_context)`:
it threads the running token tallies (adding this page's counts, as required
by the accumulating assignment at `zerox.py` lines 103-110) and returns the
new page output as the updated prior context; a failing page contributes no
content and leaves tallies and context unchanged. -/
def process_page (pm : PageModel) (image : String) (inTok outTok : Nat)
    (prior : String) : Option String × Nat × Nat × String :=
  match pm.run image prior with
  | some (content, pin, pout) => (some content, inTok + pin, outTok + pout, content)
  | none => (none, inTok, outTok, prior)

/-! ## The sequential maintain-format loop (`zerox.py` lines 101-112)

The loop is embedded together with an explicit trace of the calls it makes,
so that the sequential-chaining claims are statements about the run itself. -/

/-- One call made by the maintain-format loop: the image and the three
accumulator arguments passed to `process_page`. -/
structure CallRec where
  image : String
  inTok : Nat
  outTok : Nat
  priorArg : String
  deriving Repr, DecidableEq

/-- Result of the maintain-format loop: the call trace, the aggregated
markdown (a result is appended only when truthy, `zerox.py` line 111), and
the final accumulator values. -/
structure MaintainResult where
  calls : List CallRec
  agg : List String
  inTok : Nat
  outTok : Nat
  prior : String
  deriving Repr, DecidableEq

/-- The maintain-format loop of `zerox.py` lines 101-112: sequentially calls
`pp` (instantiated with `process_page` by `zerox`) on each image, threading
the token tallies and the prior-page context, and appends each truthy result
(non-`None`, non-empty) to the aggregated markdown. -/
def maintainRun (pp : String → Nat → Nat → String → Option String × Nat × Nat × String) :
    List String → Nat → Nat → String → MaintainResult
  | [], inT, outT, prior => ⟨[], [], inT, outT, prior⟩
  | img :: rest, inT, outT, prior =>
    let r := pp img inT outT prior
    let m := maintainRun pp rest r.2.1 r.2.2.1 r.2.2.2
    { calls := ⟨img, inT, outT, prior⟩ :: m.calls,
      agg := match r.1 with
        | some s => if s = "" then m.agg else s :: m.agg
        | none => m.agg,
      inTok := m.inTok, outTok := m.outTok, prior := m.prior }

/-! ## The batched path (spec §4.3)

`process_pages_in_batches` lives in `zerox/processor`, which is not under
`src/`; it is modelled from the spec: the image list is split into batches of
size `concurrency`; within a batch all pages run concurrently and may finish
in any order; results are gathered back in the original page order. The
nondeterministic completion order of a batch is an explicit parameter. -/

/-- Split a list into chunks of size `n` (spec §4.3: "splits the input image
list into sequential batches of size = concurrency"). Fuel-based so that it
is structural; `chunkList` supplies fuel `xs.length`. -/
def chunkFuel {α : Type} : Nat → Nat → List α → List (List α)
  | _, _, [] => []
  | 0, _, l => [l]
  | fuel + 1, n, x :: xs => (x :: xs.take (n - 1)) :: chunkFuel fuel n (xs.drop (n - 1))

/-- Split `xs` into chunks of size `n`. -/
def chunkList {α : Type} (n : Nat) (xs : List α) : List (List α) :=
  chunkFuel xs.length n xs

/-- One page processed with the accumulator values the batched path passes to
every page (`zerox.py` lines 114-122 pass the same `input_token_count`,
`output_token_count`, `prior_page` to the scheduler): the page's result and
the two returned token tallies. -/
def pagePass (pm : PageModel) (inTok outTok : Nat) (prior : String)
    (img : String) : Option String × Nat × Nat :=
  let r := process_page pm img inTok outTok prior
  (r.1, r.2.1, r.2.2.1)

/-- Modelled from the spec: the concurrent execution of one batch. The pages
of `batch` finish in the order given by `order` (a sequence of indices into
the batch); each completion event records the page's index and its result. -/
def runBatchEvents (pm : PageModel) (inTok outTok : Nat) (prior : String)
    (batch : List String) (order : List Nat) :
    List (Nat × (Option String × Nat × Nat)) :=
  order.map (fun i => (i, pagePass pm inTok outTok prior (batch.getD i "")))

/-- Modelled from the spec: gathering a batch's completion events back into
original page order (spec §4.3: "final output preserves the original image
ordering ... intra-batch completion order does not affect output order"). -/
def gatherBatch (batch : List String)
    (events : List (Nat × (Option String × Nat × Nat))) :
    List (Option String × Nat × Nat) :=
  (List.range batch.length).map (fun i =>
    match events.find? (fun e => e.1 == i) with
    | some e => e.2
    | none => (none, 0, 0))

/-- Modelled from the spec: run the batches one after another (spec §4.3 /
§5: "batches themselves execute strictly in sequence"), each with its own
completion order, concatenating the gathered results. -/
def runBatches (pm : PageModel) (inTok outTok : Nat) (prior : String) :
    List (List String) → List (List Nat) → List (Option String × Nat × Nat)
  | [], _ => []
  | b :: bs, orders =>
    gatherBatch b (runBatchEvents pm inTok outTok prior b (orders.headD []))
      ++ runBatches pm inTok outTok prior bs orders.tail

/-- Modelled from the spec: `process_pages_in_batches` from
`zerox/processor` is not under `src/`. Per §4.3 it fans the image list out in
batches of size `concurrency` and returns one result per image, in the
original image order, regardless of the per-batch completion orders. -/
def process_pages_in_batches (pm : PageModel) (images : List String)
    (concurrency : Nat) (inTok outTok : Nat) (prior : String)
    (orders : List (List Nat)) : List (Option String × Nat × Nat) :=
  runBatches pm inTok outTok prior (chunkList concurrency images) orders

/-! ## The environment and the orchestrator -/

/-- The external world `zerox` runs against: the system temp directory, the
downloader, the directory listing after rasterization, the vision model's
per-page behaviour, the completion orders of the batched path, and the wall
clock (elapsed milliseconds). -/
structure ZeroxEnv where
  gettempdir : String
  download_file : String → String → Option String
  listdir : String → List String
  pm : PageModel
  orders : List (List Nat)
  elapsedMs : Nat

/-- The working temporary directory of a run
(`zerox.py` line 73: `os.path.join(temp_dir or tempfile.gettempdir(), "zerox-temp")`). -/
def tempDirectoryOf (env : ZeroxEnv) (temp_dir : String) : String :=
  (if temp_dir = "" then env.gettempdir else temp_dir) ++ "/zerox-temp"

/-- The page images enumerated after rasterization
(`zerox.py` lines 88-92: every `.png` entry of the temp directory listing,
prefixed with the temp directory path). -/
def imagesIn (env : ZeroxEnv) (temp_directory : String) : List String :=
  ((env.listdir temp_directory).filter hasPngExt).map
    (fun f => temp_directory ++ "/" ++ f)

/-- The response formatting of `zerox.py` lines 143-146 with the running
`enumerate` index made explicit: each content string at index `i` becomes
`Page(content=content, page=i + 1, content_length=len(content))`. -/
def formatPagesFrom (i : Nat) : List String → List Page
  | [] => []
  | content :: rest =>
    { content := content, page := i + 1, content_length := content.length }
      :: formatPagesFrom (i + 1) rest

/-- The response formatting of `zerox.py` lines 143-146:
`Page(content=content, page=i + 1, content_length=len(content)) for i, content
in enumerate(aggregated_markdown)`. -/
def formatPages (aggregated_markdown : List String) : List Page :=
  formatPagesFrom 0 aggregated_markdown

/-- The directory creations performed before the download
(`zerox.py` lines 69-74): ensure the output directory exists, then create the
working temporary directory. -/
def fsPrepared (env : ZeroxEnv) (fs : Fs) (output_dir : Option String)
    (temp_dir : String) : Fs :=
  (match output_dir with
   | some d => fs.makedirs d
   | none => fs).makedirs (tempDirectoryOf env temp_dir)

/-- The PROCESS branch of `zerox.py` lines 101-128: the aggregated markdown
list and the two token totals, either from the sequential maintain-format
loop (appending only truthy results, accumulators threaded through
`process_page`), or from the batched path (keeping exactly the string
results, summing the returned per-result token counts onto the zero
accumulators). -/
def zeroxAgg (env : ZeroxEnv) (images : List String) (concurrency : Nat)
    (maintain_format : Bool) : List String × Nat × Nat :=
  if maintain_format then
    let m := maintainRun (process_page env.pm) images 0 0 ""
    (m.agg, m.inTok, m.outTok)
  else
    let results := process_pages_in_batches env.pm images concurrency 0 0 "" env.orders
    (results.filterMap (fun r => r.1),
     0 + (results.map (fun r => r.2.1)).sum,
     0 + (results.map (fun r => r.2.2)).sum)

/-- `zerox.py` lines 81-154 (everything after the download succeeded):
sanitize the file name, enumerate the rasterized page images, process them,
optionally persist the joined markdown, optionally clean up the working
temporary directory, and build the `ZeroxOutput`. -/
def zeroxCore (env : ZeroxEnv) (fs2 : Fs) (cleanup : Bool) (concurrency : Nat)
    (maintain_format : Bool) (output_dir : Option String)
    (temp_directory : String) (local_path : String) : ZeroxOutput × Fs :=
  -- lines 81-82: sanitized file name
  let file_name := sanitize (splitextRoot (basename local_path))
  -- lines 84-92: rasterize and enumerate the page images
  let images := imagesIn env temp_directory
  -- lines 101-128: sequential maintain-format loop or batched path
  let proc := zeroxAgg env images concurrency maintain_format
  let aggregated_markdown := proc.1
  -- lines 130-134: persist the aggregated markdown
  let fs3 := match output_dir with
    | some d =>
      fs2.writeFile (d ++ "/" ++ file_name ++ ".md")
        (joinSep "\n\n" aggregated_markdown)
    | none => fs2
  -- lines 136-138: cleanup
  let fs4 := if cleanup && fs3.dirs.contains temp_directory
    then fs3.rmtree temp_directory else fs3
  -- lines 140-154: format and return the response
  ({ completion_time := env.elapsedMs,
     file_name := file_name,
     input_tokens := proc.2.1,
     output_tokens := proc.2.2,
     pages := formatPages aggregated_markdown }, fs4)

/-- The `zerox` orchestrator of `zerox.py` lines 21-154, embedded with
explicit filesystem state. Parameters mirror the Python signature (`model`
and `custom_system_prompt` only configure the external vision model, which is
abstracted as `env.pm`). Returns the `ZeroxOutput` or the raised error,
together with the final filesystem state. -/
def zerox (env : ZeroxEnv) (fs : Fs) (cleanup : Bool) (concurrency : Nat)
    (file_path : String) (maintain_format : Bool) (output_dir : Option String)
    (temp_dir : String) : Except ZeroxError ZeroxOutput × Fs :=
  -- lines 58-61: input_token_count = 0; output_token_count = 0;
  -- prior_page = ""; aggregated_markdown = []
  -- lines 64-66: if not file_path: raise FileUnavailable()
  if file_path = "" then (.error .FileUnavailable, fs)
  else
    -- lines 69-74: ensure the output directory exists; create the working
    -- temporary directory
    let temp_directory := tempDirectoryOf env temp_dir
    let fs2 := fsPrepared env fs output_dir temp_dir
    -- lines 76-79: download the file; raise if no local path
    match env.download_file file_path temp_directory with
    | none => (.error .FileUnavailable, fs2)
    | some local_path =>
      let r := zeroxCore env fs2 cleanup concurrency maintain_format output_dir
        temp_directory local_path
      (.ok r.1, r.2)

/-! ## Specification-side definitions used to state the claims -/

/-- The per-page token counts along the maintain-format chain: for each page,
the input/output token counts the model reports for it (`(0, 0)` for a
failing page), with the prior context threaded sequentially exactly as the
loop threads it. -/
def maintainPagesTok (pm : PageModel) : List String → String → List (Nat × Nat)
  | [], _ => []
  | img :: rest, prior =>
    match pm.run img prior with
    | some (content, pin, pout) => (pin, pout) :: maintainPagesTok pm rest content
    | none => (0, 0) :: maintainPagesTok pm rest prior

/-- A completion order covers a batch of `n` pages when every page index
below `n` eventually completes. -/
def coversRange (order : List Nat) (n : Nat) : Prop :=
  ∀ i < n, i ∈ order

/-- Every batch's completion order covers that batch (every dispatched page
eventually settles, spec §4.3: "the batch completes once all its pages
settle"). -/
def validOrders (orders : List (List Nat)) (batches : List (List String)) : Prop :=
  ∀ k < batches.length, coversRange (orders.getD k []) (batches.getD k []).length

/-- The per-page content outcomes along the maintain-format chain: for each
page, `some content` when the model returns content for it, `none` when the
page fails, with the prior context threaded sequentially as the loop threads
it. -/
def maintainContents (pm : PageModel) : List String → String → List (Option String)
  | [], _ => []
  | img :: rest, prior =>
    match pm.run img prior with
    | some (content, _, _) => some content :: maintainContents pm rest content
    | none => none :: maintainContents pm rest prior

/-- The pages of a run result, or `[]` when the run raised. -/
def pagesOf (r : Except ZeroxError ZeroxOutput) : List Page :=
  match r with
  | .ok o => o.pages
  | .error _ => []

instance (order : List Nat) (n : Nat) : Decidable (coversRange order n) :=
  inferInstanceAs (Decidable (∀ i < n, i ∈ order))

instance (orders : List (List Nat)) (batches : List (List String)) :
    Decidable (validOrders orders batches) :=
  inferInstanceAs (Decidable (∀ k < batches.length,
    coversRange (orders.getD k []) (batches.getD k []).length))

instance : DecidableEq (Except ZeroxError ZeroxOutput)
  | .ok x, .ok y =>
    if h : x = y then .isTrue (congrArg Except.ok h)
    else .isFalse (fun hh => h (Except.ok.inj hh))
  | .error x, .error y =>
    if h : x = y then .isTrue (congrArg Except.error h)
    else .isFalse (fun hh => h (Except.error.inj hh))
  | .ok _, .error _ => .isFalse (fun hh => Except.noConfusion hh)
  | .error _, .ok _ => .isFalse (fun hh => Except.noConfusion hh)

/-! ## Concrete environments for witnesses and counterexamples -/

/-- The empty filesystem. -/
def fs0 : Fs := ⟨[], []⟩

/-- A three-page document whose pages all succeed; the first batch's
completion order is scrambled (its second page finishes first). -/
def envW : ZeroxEnv :=
  { gettempdir := "tmp"
    download_file := fun _ _ => some "Report (Final)!.pdf"
    listdir := fun _ => ["p1.png", "p2.png", "p3.png"]
    pm := ⟨fun img prior => some ("m" ++ img ++ prior, 2, 3)⟩
    orders := [[1, 0], [0]]
    elapsedMs := 5 }

/-- The output of the batched (`maintain_format = false`) run of `zerox`
over `envW` with concurrency 2. -/
def outW : ZeroxOutput :=
  { completion_time := 5
    file_name := "report__final__"
    input_tokens := 6
    output_tokens := 9
    pages := [⟨"mtmp/zerox-temp/p1.png", 1, 22⟩,
              ⟨"mtmp/zerox-temp/p2.png", 2, 22⟩,
              ⟨"mtmp/zerox-temp/p3.png", 3, 22⟩] }

/-- The output of the sequential (`maintain_format = true`) run of `zerox`
over `envW`: each page's content ends with the previous page's content,
because the prior-page context is threaded through the chain. -/
def outWM : ZeroxOutput :=
  { completion_time := 5
    file_name := "report__final__"
    input_tokens := 6
    output_tokens := 9
    pages := [⟨"mtmp/zerox-temp/p1.png", 1, 22⟩,
              ⟨"mtmp/zerox-temp/p2.pngmtmp/zerox-temp/p1.png", 2, 44⟩,
              ⟨"mtmp/zerox-temp/p3.pngmtmp/zerox-temp/p2.pngmtmp/zerox-temp/p1.png", 3, 66⟩] }

/-- The filesystem after the batched run of `zerox` over `envW` with
`output_dir = some "out"` and cleanup on: only the output directory and the
persisted markdown file remain. -/
def fsOutW : Fs :=
  ⟨["out"],
   [("out/report__final__.md",
     "mtmp/zerox-temp/p1.png\n\nmtmp/zerox-temp/p2.png\n\nmtmp/zerox-temp/p3.png")]⟩

/-- A zero-page document: rasterization produces no page images. -/
def envE : ZeroxEnv :=
  { gettempdir := "tmp"
    download_file := fun _ _ => some "doc.pdf"
    listdir := fun _ => []
    pm := ⟨fun _ _ => none⟩
    orders := []
    elapsedMs := 0 }

/-- The output of a run over the zero-page environment `envE`. -/
def outE : ZeroxOutput :=
  { completion_time := 0, file_name := "doc",
    input_tokens := 0, output_tokens := 0, pages := [] }

/-- A one-page document whose page processing returns empty content (the
provider returned no text). -/
def envC : ZeroxEnv :=
  { gettempdir := "tmp"
    download_file := fun _ _ => some "doc.pdf"
    listdir := fun _ => ["p1.png"]
    pm := ⟨fun _ _ => some ("", 3, 4)⟩
    orders := [[0]]
    elapsedMs := 0 }

/-- An environment whose download/resolve step yields no local path. -/
def envD : ZeroxEnv :=
  { gettempdir := "tmp"
    download_file := fun _ _ => none
    listdir := fun _ => []
    pm := ⟨fun _ _ => none⟩
    orders := []
    elapsedMs := 0 }

/-! ## Helper lemmas -/

theorem chunkFuel_join {α : Type} (n : Nat) :
    ∀ (fuel : Nat) (xs : List α), xs.length ≤ fuel →
      (chunkFuel fuel n xs).flatten = xs := by
  intro fuel
  induction fuel with
  | zero =>
    intro xs h
    cases xs with
    | nil => rfl
    | cons x xs => simp at h
  | succ fuel ih =>
    intro xs h
    cases xs with
    | nil => rfl
    | cons x xs =>
      have hlen : (xs.drop (n - 1)).length ≤ fuel := by
        simp only [List.length_cons] at h
        simp only [List.length_drop]
        omega
      show ((x :: xs.take (n - 1)) :: chunkFuel fuel n (xs.drop (n - 1))).flatten = x :: xs
      rw [List.flatten_cons, ih _ hlen, List.cons_append, List.take_append_drop]

theorem chunkList_flatten {α : Type} (n : Nat) (xs : List α) :
    (chunkList n xs).flatten = xs :=
  chunkFuel_join n xs.length xs (Nat.le_refl _)

theorem map_range_getD {α β : Type} (g : α → β) (d : α) :
    ∀ l : List α, (List.range l.length).map (fun i => g (l.getD i d)) = l.map g := by
  intro l
  induction l with
  | nil => rfl
  | cons x xs ih =>
    rw [List.length_cons, List.range_succ_eq_map, List.map_cons, List.map_map,
      List.map_cons]
    refine congrArg₂ _ rfl ?_
    rw [← ih]
    refine List.map_congr_left ?_
    intro i _
    rfl

theorem find?_runBatchEvents (pm : PageModel) (a b : Nat) (c : String)
    (batch : List String) (i : Nat) :
    ∀ order : List Nat, i ∈ order →
      (runBatchEvents pm a b c batch order).find? (fun e => e.1 == i) =
        some (i, pagePass pm a b c (batch.getD i "")) := by
  intro order
  induction order with
  | nil => intro h; simp at h
  | cons j rest ih =>
    intro h
    by_cases hji : j = i
    · subst hji
      exact List.find?_cons_of_pos _ (by simp)
    · have hi : i ∈ rest := by
        rcases List.mem_cons.mp h with h1 | h1
        · exact absurd h1.symm hji
        · exact h1
      have : (runBatchEvents pm a b c batch (j :: rest)) =
          (j, pagePass pm a b c (batch.getD j "")) ::
            runBatchEvents pm a b c batch rest := rfl
      rw [this, List.find?_cons_of_neg _ (by simp [hji])]
      exact ih hi

theorem gatherBatch_eq (pm : PageModel) (a b : Nat) (c : String)
    (batch : List String) (order : List Nat)
    (h : coversRange order batch.length) :
    gatherBatch batch (runBatchEvents pm a b c batch order) =
      batch.map (pagePass pm a b c) := by
  unfold gatherBatch
  rw [← map_range_getD (pagePass pm a b c) "" batch]
  refine List.map_congr_left ?_
  intro i hi
  rw [find?_runBatchEvents pm a b c batch i order (h i (List.mem_range.mp hi))]

theorem getD_zero_eq_headD {α : Type} (l : List α) (d : α) :
    l.getD 0 d = l.headD d := by
  cases l <;> rfl

theorem tail_getD {α : Type} (l : List α) (k : Nat) (d : α) :
    l.tail.getD k d = l.getD (k + 1) d := by
  cases l <;> rfl

theorem runBatches_eq (pm : PageModel) (a b : Nat) (c : String) :
    ∀ (batches : List (List String)) (orders : List (List Nat)),
      validOrders orders batches →
      runBatches pm a b c batches orders =
        batches.flatten.map (pagePass pm a b c) := by
  intro batches
  induction batches with
  | nil => intro orders _; rfl
  | cons bt bs ih =>
    intro orders h
    have h0 : coversRange (orders.headD []) bt.length := by
      have := h 0 (by simp)
      rwa [getD_zero_eq_headD] at this
    have htail : validOrders orders.tail bs := by
      intro k hk
      have h1 := h (k + 1) (by simpa using Nat.succ_lt_succ hk)
      rw [List.getD_cons_succ] at h1
      rw [tail_getD]
      exact h1
    show gatherBatch bt (runBatchEvents pm a b c bt (orders.headD []))
        ++ runBatches pm a b c bs orders.tail
      = ((bt :: bs).flatten).map (pagePass pm a b c)
    rw [gatherBatch_eq pm a b c bt _ h0, ih orders.tail htail,
      List.flatten_cons, List.map_append]

theorem process_pages_in_batches_eq (pm : PageModel) (images : List String)
    (concurrency : Nat) (a b : Nat) (c : String) (orders : List (List Nat))
    (h : validOrders orders (chunkList concurrency images)) :
    process_pages_in_batches pm images concurrency a b c orders =
      images.map (pagePass pm a b c) := by
  unfold process_pages_in_batches
  rw [runBatches_eq pm a b c _ orders h, chunkList_flatten]

theorem maintainRun_tok (pm : PageModel) :
    ∀ (images : List String) (a b : Nat) (p : String),
      (maintainRun (process_page pm) images a b p).inTok =
          a + ((maintainPagesTok pm images p).map Prod.fst).sum ∧
        (maintainRun (process_page pm) images a b p).outTok =
          b + ((maintainPagesTok pm images p).map Prod.snd).sum := by
  intro images
  induction images with
  | nil => intro a b p; simp [maintainRun, maintainPagesTok]
  | cons img rest ih =>
    intro a b p
    cases hrun : pm.run img p with
    | none =>
      have h1 : process_page pm img a b p = (none, a, b, p) := by
        simp [process_page, hrun]
      simp [maintainRun, maintainPagesTok, hrun, h1, (ih a b p).1, (ih a b p).2]
    | some t =>
      obtain ⟨content, pin, pout⟩ := t
      have h1 : process_page pm img a b p = (some content, a + pin, b + pout, content) := by
        simp [process_page, hrun]
      constructor
      · simp [maintainRun, maintainPagesTok, hrun, h1,
          (ih (a + pin) (b + pout) content).1, Nat.add_assoc]
      · simp [maintainRun, maintainPagesTok, hrun, h1,
          (ih (a + pin) (b + pout) content).2, Nat.add_assoc]

theorem maintainRun_calls_image
    (pp : String → Nat → Nat → String → Option String × Nat × Nat × String) :
    ∀ (images : List String) (a b : Nat) (p : String),
      (maintainRun pp images a b p).calls.map (fun r => r.image) = images := by
  intro images
  induction images with
  | nil => intro a b p; rfl
  | cons img rest ih =>
    intro a b p
    simp only [maintainRun, List.map_cons]
    rw [ih]

theorem maintainRun_calls_head
    (pp : String → Nat → Nat → String → Option String × Nat × Nat × String)
    (img : String) (rest : List String) (a b : Nat) (p : String) :
    (maintainRun pp (img :: rest) a b p).calls.head? = some ⟨img, a, b, p⟩ := rfl

theorem maintainRun_calls_chain
    (pp : String → Nat → Nat → String → Option String × Nat × Nat × String) :
    ∀ (images : List String) (a b : Nat) (p : String),
      List.Chain' (fun x y =>
        y.inTok = (pp x.image x.inTok x.outTok x.priorArg).2.1 ∧
        y.outTok = (pp x.image x.inTok x.outTok x.priorArg).2.2.1 ∧
        y.priorArg = (pp x.image x.inTok x.outTok x.priorArg).2.2.2)
      (maintainRun pp images a b p).calls := by
  intro images
  induction images with
  | nil => intro a b p; exact List.chain'_nil
  | cons img rest ih =>
    intro a b p
    have hcalls : (maintainRun pp (img :: rest) a b p).calls =
        ⟨img, a, b, p⟩ :: (maintainRun pp rest (pp img a b p).2.1
          (pp img a b p).2.2.1 (pp img a b p).2.2.2).calls := rfl
    rw [hcalls]
    refine List.chain'_cons'.mpr ⟨?_, ih _ _ _⟩
    intro y hy
    cases rest with
    | nil => simp [maintainRun] at hy
    | cons img2 rest2 =>
      rw [maintainRun_calls_head] at hy
      simp only [Option.mem_def, Option.some.injEq] at hy
      subst hy
      exact ⟨rfl, rfl, rfl⟩

theorem formatPagesFrom_map_content :
    ∀ (agg : List String) (i : Nat),
      (formatPagesFrom i agg).map (fun pg => pg.content) = agg := by
  intro agg
  induction agg with
  | nil => intro i; rfl
  | cons c rest ih =>
    intro i
    simp only [formatPagesFrom, List.map_cons]
    rw [ih]

theorem formatPagesFrom_map_page :
    ∀ (agg : List String) (i : Nat),
      (formatPagesFrom i agg).map (fun pg => pg.page) =
        List.range' (i + 1) agg.length := by
  intro agg
  induction agg with
  | nil => intro i; rfl
  | cons c rest ih =>
    intro i
    simp only [formatPagesFrom, List.map_cons, List.length_cons, List.range'_succ]
    rw [ih]

theorem formatPagesFrom_length :
    ∀ (agg : List String) (i : Nat),
      (formatPagesFrom i agg).length = agg.length := by
  intro agg
  induction agg with
  | nil => intro i; rfl
  | cons c rest ih =>
    intro i
    simp only [formatPagesFrom, List.length_cons]
    rw [ih]

theorem formatPagesFrom_all_content_length :
    ∀ (agg : List String) (i : Nat),
      (formatPagesFrom i agg).all
        (fun pg => pg.content_length == pg.content.length) = true := by
  intro agg
  induction agg with
  | nil => intro i; rfl
  | cons c rest ih =>
    intro i
    simp [formatPagesFrom, ih (i + 1)]

theorem maintainRun_first_prior
    (pp : String → Nat → Nat → String → Option String × Nat × Nat × String)
    (images : List String) (a b : Nat) (p : String) :
    ((maintainRun pp images a b p).calls.map (fun r => r.priorArg)).headD p = p := by
  cases images <;> rfl

theorem content_length_of_mem_formatPagesFrom :
    ∀ (agg : List String) (i : Nat) (pg : Page), pg ∈ formatPagesFrom i agg →
      pg.content_length = pg.content.length := by
  intro agg
  induction agg with
  | nil => intro i pg h; simp [formatPagesFrom] at h
  | cons c rest ih =>
    intro i pg h
    rcases List.mem_cons.mp h with h1 | h1
    · subst h1; rfl
    · exact ih _ _ h1

theorem makedirs_contains (fs : Fs) (p : String) :
    (fs.makedirs p).dirs.contains p = true := by
  unfold Fs.makedirs
  by_cases h : fs.dirs.contains p = true
  · rw [if_pos h]; exact h
  · rw [if_neg h]; simp

theorem makedirs_files (fs : Fs) (p : String) :
    (fs.makedirs p).files = fs.files := rfl

theorem writeFile_dirs (fs : Fs) (p c : String) :
    (fs.writeFile p c).dirs = fs.dirs := rfl

theorem underOrEq_self (p : String) : underOrEq p p = true := by
  simp [underOrEq]

theorem rmtree_self_not_mem (fs : Fs) (p : String) :
    p ∉ (fs.rmtree p).dirs := by
  intro hmem
  unfold Fs.rmtree at hmem
  have h2 := (List.mem_filter.mp hmem).2
  rw [underOrEq_self] at h2
  simp at h2

theorem countP_filter_ne_key (p : String) :
    ∀ l : List (String × String),
      (l.filter (fun kv => kv.1 != p)).countP (fun kv => kv.1 == p) = 0 := by
  intro l
  induction l with
  | nil => rfl
  | cons kv rest ih =>
    rw [List.filter_cons]
    by_cases h : kv.1 = p
    · simp only [h, bne_self_eq_false, if_false]
      exact ih
    · have hb : (kv.1 != p) = true := bne_iff_ne.mpr h
      rw [if_pos hb, List.countP_cons, ih]
      simp [h]

theorem writeFile_countP (fs : Fs) (p c : String) :
    (fs.writeFile p c).files.countP (fun kv => kv.1 == p) = 1 := by
  unfold Fs.writeFile
  rw [List.countP_cons, countP_filter_ne_key]
  simp

theorem writeFile_lookup (fs : Fs) (p c : String) :
    (fs.writeFile p c).files.lookup p = some c := by
  unfold Fs.writeFile
  simp [List.lookup]

theorem countP_filter_of_key (q : String × String → Bool) (p : String)
    (hq : ∀ kv : String × String, kv.1 = p → q kv = true) :
    ∀ l : List (String × String),
      (l.filter q).countP (fun kv => kv.1 == p) =
        l.countP (fun kv => kv.1 == p) := by
  intro l
  induction l with
  | nil => rfl
  | cons kv rest ih =>
    rw [List.filter_cons, List.countP_cons]
    by_cases hqkv : q kv = true
    · rw [if_pos hqkv, List.countP_cons, ih]
    · have h : kv.1 ≠ p := fun hh => hqkv (hq kv hh)
      rw [if_neg hqkv, ih]
      simp [h]

theorem lookup_filter_of_key (q : String × String → Bool) (p : String)
    (hq : ∀ kv : String × String, kv.1 = p → q kv = true) :
    ∀ l : List (String × String), (l.filter q).lookup p = l.lookup p := by
  intro l
  induction l with
  | nil => rfl
  | cons kv rest ih =>
    obtain ⟨k, v⟩ := kv
    rw [List.filter_cons]
    by_cases hk : k = p
    · have hkept : q (k, v) = true := hq (k, v) hk
      rw [if_pos hkept]
      subst hk
      simp [List.lookup]
    · by_cases hqkv : q (k, v) = true
      · rw [if_pos hqkv]
        have hb : (p == k) = false := by
          simp [Ne.symm hk]
        simp [List.lookup, hb, ih]
      · rw [if_neg hqkv, ih]
        have hb : (p == k) = false := by
          simp [Ne.symm hk]
        simp [List.lookup, hb]

theorem rmtree_countP (fs : Fs) (t p : String) (h : underOrEq t p = false) :
    (fs.rmtree t).files.countP (fun kv => kv.1 == p) =
      fs.files.countP (fun kv => kv.1 == p) := by
  unfold Fs.rmtree
  exact countP_filter_of_key _ p (fun kv hk => by rw [hk, h]; rfl) fs.files

theorem rmtree_lookup (fs : Fs) (t p : String) (h : underOrEq t p = false) :
    (fs.rmtree t).files.lookup p = fs.files.lookup p := by
  unfold Fs.rmtree
  exact lookup_filter_of_key _ p (fun kv hk => by rw [hk, h]; rfl) fs.files

theorem fsPrepared_contains (env : ZeroxEnv) (fs : Fs)
    (output_dir : Option String) (temp_dir : String) :
    (fsPrepared env fs output_dir temp_dir).dirs.contains
      (tempDirectoryOf env temp_dir) = true :=
  makedirs_contains _ _

theorem zerox_empty_path (env : ZeroxEnv) (fs : Fs) (cleanup : Bool)
    (concurrency : Nat) (maintain_format : Bool) (output_dir : Option String)
    (temp_dir : String) :
    zerox env fs cleanup concurrency "" maintain_format output_dir temp_dir =
      (.error .FileUnavailable, fs) := rfl

theorem zerox_download_none (env : ZeroxEnv) (fs : Fs) (cleanup : Bool)
    (concurrency : Nat) (file_path : String) (maintain_format : Bool)
    (output_dir : Option String) (temp_dir : String)
    (hfp : file_path ≠ "")
    (hdl : env.download_file file_path (tempDirectoryOf env temp_dir) = none) :
    zerox env fs cleanup concurrency file_path maintain_format output_dir temp_dir =
      (.error .FileUnavailable, fsPrepared env fs output_dir temp_dir) := by
  simp only [zerox, if_neg hfp, hdl]

theorem maintainRun_agg (pm : PageModel) :
    ∀ (images : List String) (a b : Nat) (p : String),
      (maintainRun (process_page pm) images a b p).agg =
        ((maintainContents pm images p).filterMap id).filter (fun s => s != "") := by
  intro images
  induction images with
  | nil => intro a b p; rfl
  | cons img rest ih =>
    intro a b p
    cases hrun : pm.run img p with
    | none =>
      have h1 : process_page pm img a b p = (none, a, b, p) := by
        simp [process_page, hrun]
      simp only [maintainRun, maintainContents, hrun, h1, List.filterMap_cons]
      exact ih a b p
    | some t =>
      obtain ⟨content, pin, pout⟩ := t
      have h1 : process_page pm img a b p = (some content, a + pin, b + pout, content) := by
        simp [process_page, hrun]
      simp only [maintainRun, maintainContents, hrun, h1, List.filterMap_cons, id,
        List.filter_cons]
      by_cases hc : content = ""
      · subst hc
        simp only [bne_self_eq_false, if_false, if_pos rfl]
        exact ih _ _ _
      · have hb : (content != "") = true := bne_iff_ne.mpr hc
        rw [if_neg hc, if_pos hb]
        rw [ih]

theorem length_filterMap_fst (results : List (Option String × Nat × Nat)) :
    (results.filterMap (fun r => r.1)).length =
      results.countP (fun r => r.1.isSome) := by
  induction results with
  | nil => rfl
  | cons r rest ih =>
    cases hr : r.1 <;>
      simp [List.filterMap_cons, hr, List.countP_cons, ih]

theorem makedirs_mem (fs : Fs) (p : String) : p ∈ (fs.makedirs p).dirs := by
  unfold Fs.makedirs
  by_cases h : fs.dirs.contains p = true
  · rw [if_pos h]
    exact List.elem_iff.mp h
  · rw [if_neg h]
    exact List.mem_cons_self _ _

theorem zeroxCore_snd_some (env : ZeroxEnv) (fs2 : Fs) (cleanup : Bool)
    (concurrency : Nat) (maintain_format : Bool) (d : String)
    (temp_directory : String) (lp : String) :
    (zeroxCore env fs2 cleanup concurrency maintain_format (some d)
        temp_directory lp).2 =
      (if cleanup && (fs2.writeFile
          (d ++ "/" ++ sanitize (splitextRoot (basename lp)) ++ ".md")
          (joinSep "\n\n" (zeroxAgg env (imagesIn env temp_directory)
            concurrency maintain_format).1)).dirs.contains temp_directory
       then (fs2.writeFile
          (d ++ "/" ++ sanitize (splitextRoot (basename lp)) ++ ".md")
          (joinSep "\n\n" (zeroxAgg env (imagesIn env temp_directory)
            concurrency maintain_format).1)).rmtree temp_directory
       else fs2.writeFile
          (d ++ "/" ++ sanitize (splitextRoot (basename lp)) ++ ".md")
          (joinSep "\n\n" (zeroxAgg env (imagesIn env temp_directory)
            concurrency maintain_format).1)) := rfl

theorem zeroxCore_snd_none (env : ZeroxEnv) (fs2 : Fs) (cleanup : Bool)
    (concurrency : Nat) (maintain_format : Bool)
    (temp_directory : String) (lp : String) :
    (zeroxCore env fs2 cleanup concurrency maintain_format none
        temp_directory lp).2 =
      (if cleanup && fs2.dirs.contains temp_directory
       then fs2.rmtree temp_directory else fs2) := rfl

theorem zerox_resolved (env : ZeroxEnv) (fs : Fs) (cleanup : Bool)
    (concurrency : Nat) (file_path : String) (maintain_format : Bool)
    (output_dir : Option String) (temp_dir : String) (lp : String)
    (hfp : file_path ≠ "")
    (hdl : env.download_file file_path (tempDirectoryOf env temp_dir) = some lp) :
    zerox env fs cleanup concurrency file_path maintain_format output_dir temp_dir =
      (Except.ok (zeroxCore env (fsPrepared env fs output_dir temp_dir) cleanup
          concurrency maintain_format output_dir (tempDirectoryOf env temp_dir) lp).1,
        (zeroxCore env (fsPrepared env fs output_dir temp_dir) cleanup
          concurrency maintain_format output_dir (tempDirectoryOf env temp_dir) lp).2) := by
  simp only [zerox, if_neg hfp, hdl]

theorem zerox_persisted_file (env : ZeroxEnv) (fs : Fs) (cleanup : Bool)
    (concurrency : Nat) (file_path : String) (maintain_format : Bool)
    (temp_dir d lp : String)
    (hfp : file_path ≠ "")
    (hdl : env.download_file file_path (tempDirectoryOf env temp_dir) = some lp)
    (hsep : underOrEq (tempDirectoryOf env temp_dir)
      (d ++ "/" ++ sanitize (splitextRoot (basename lp)) ++ ".md") = false) :
    ((zerox env fs cleanup concurrency file_path maintain_format (some d)
        temp_dir).2).files.lookup
        (d ++ "/" ++ sanitize (splitextRoot (basename lp)) ++ ".md") =
      some (joinSep "\n\n" (zeroxAgg env
        (imagesIn env (tempDirectoryOf env temp_dir)) concurrency maintain_format).1) ∧
    ((zerox env fs cleanup concurrency file_path maintain_format (some d)
        temp_dir).2).files.countP
        (fun kv => kv.1 == d ++ "/" ++ sanitize (splitextRoot (basename lp)) ++ ".md") = 1 := by
  rw [zerox_resolved env fs cleanup concurrency file_path maintain_format
    (some d) temp_dir lp hfp hdl]
  rw [zeroxCore_snd_some]
  by_cases hcl : (cleanup &&
      (((fsPrepared env fs (some d) temp_dir).writeFile
        (d ++ "/" ++ sanitize (splitextRoot (basename lp)) ++ ".md")
        (joinSep "\n\n" (zeroxAgg env (imagesIn env (tempDirectoryOf env temp_dir))
          concurrency maintain_format).1)).dirs.contains
        (tempDirectoryOf env temp_dir))) = true
  · rw [if_pos hcl]
    exact ⟨by rw [rmtree_lookup _ _ _ hsep, writeFile_lookup],
      by rw [rmtree_countP _ _ _ hsep, writeFile_countP]⟩
  · rw [if_neg hcl]
    exact ⟨writeFile_lookup _ _ _, writeFile_countP _ _ _⟩

/-! ## Claims -/

/-- C3: calling `zerox` with an empty `file_path` raises `FileUnavailable`
immediately, with the filesystem state completely unchanged — in particular
no temporary directory (and no output directory) has been created before the
raise. -/
theorem C3_empty_file_path_no_state_change (env : ZeroxEnv) (fs : Fs)
    (cleanup : Bool) (concurrency : Nat) (maintain_format : Bool)
    (output_dir : Option String) (temp_dir : String) :
    zerox env fs cleanup concurrency "" maintain_format output_dir temp_dir =
      (.error .FileUnavailable, fs) := rfl

/-- C6: in a `maintain_format = true` run, page processing is strictly
sequential: the loop makes one `process_page` call per rasterized image, in
image order; the first call receives the empty string as its prior-context
argument; and every later call's accumulator arguments — token tallies and
prior context — are exactly the values returned by the immediately preceding
`process_page` call, so each page's prompt depends on the immediately
preceding page's output. -/
theorem C6_maintain_format_sequential_chain (env : ZeroxEnv) (temp_dir : String) :
    ((maintainRun (process_page env.pm)
        (imagesIn env (tempDirectoryOf env temp_dir)) 0 0 "").calls.map
        (fun r => r.image) = imagesIn env (tempDirectoryOf env temp_dir)) ∧
      (((maintainRun (process_page env.pm)
        (imagesIn env (tempDirectoryOf env temp_dir)) 0 0 "").calls.map
        (fun r => r.priorArg)).headD "" = "") ∧
      List.Chain' (fun x y =>
        y.inTok = (process_page env.pm x.image x.inTok x.outTok x.priorArg).2.1 ∧
        y.outTok = (process_page env.pm x.image x.inTok x.outTok x.priorArg).2.2.1 ∧
        y.priorArg = (process_page env.pm x.image x.inTok x.outTok x.priorArg).2.2.2)
        (maintainRun (process_page env.pm)
          (imagesIn env (tempDirectoryOf env temp_dir)) 0 0 "").calls :=
  ⟨maintainRun_calls_image _ _ 0 0 "",
   maintainRun_first_prior _ _ 0 0 "",
   maintainRun_calls_chain _ _ 0 0 ""⟩

/-- C7: in every run result returned by `zerox`, every page record's
`content_length` field equals the length of its `content` field. -/
theorem C7_content_length_invariant (env : ZeroxEnv) (fs : Fs) (cleanup : Bool)
    (concurrency : Nat) (file_path : String) (maintain_format : Bool)
    (output_dir : Option String) (temp_dir : String) (out : ZeroxOutput) (fs' : Fs)
    (hrun : zerox env fs cleanup concurrency file_path maintain_format
      output_dir temp_dir = (.ok out, fs')) :
    out.pages.all (fun pg => pg.content_length == pg.content.length) = true := by
  by_cases hfp : file_path = ""
  · subst hfp
    rw [zerox_empty_path] at hrun
    simp at hrun
  · cases hdl : env.download_file file_path (tempDirectoryOf env temp_dir) with
    | none =>
      rw [zerox_download_none env fs cleanup concurrency file_path
        maintain_format output_dir temp_dir hfp hdl] at hrun
      simp at hrun
    | some lp =>
      rw [zerox_resolved env fs cleanup concurrency file_path maintain_format
        output_dir temp_dir lp hfp hdl] at hrun
      have hout : (zeroxCore env (fsPrepared env fs output_dir temp_dir) cleanup
          concurrency maintain_format output_dir (tempDirectoryOf env temp_dir)
          lp).1 = out := by
        simpa using congrArg Prod.fst hrun
      rw [← hout]
      exact formatPagesFrom_all_content_length _ 0

/-- C7 witness: the content-length invariant holds on the concrete batched
run over `envW`. -/
theorem C7_content_length_invariant_witness :
    outW.pages.all (fun pg => pg.content_length == pg.content.length) = true :=
  C7_content_length_invariant envW fs0 true 2 "x.pdf" false none "" outW fs0
    (by rfl)

/-- C9: for every run of `zerox` with `cleanup = true` that returns
successfully, the working temporary directory no longer exists in the final
filesystem state. -/
theorem C9_cleanup_removes_temp_directory (env : ZeroxEnv) (fs : Fs)
    (concurrency : Nat) (file_path : String) (maintain_format : Bool)
    (output_dir : Option String) (temp_dir : String) (out : ZeroxOutput) (fs' : Fs)
    (hrun : zerox env fs true concurrency file_path maintain_format
      output_dir temp_dir = (.ok out, fs')) :
    tempDirectoryOf env temp_dir ∉ fs'.dirs := by
  by_cases hfp : file_path = ""
  · subst hfp
    rw [zerox_empty_path] at hrun
    simp at hrun
  · cases hdl : env.download_file file_path (tempDirectoryOf env temp_dir) with
    | none =>
      rw [zerox_download_none env fs true concurrency file_path
        maintain_format output_dir temp_dir hfp hdl] at hrun
      simp at hrun
    | some lp =>
      rw [zerox_resolved env fs true concurrency file_path maintain_format
        output_dir temp_dir lp hfp hdl] at hrun
      have hfs : (zeroxCore env (fsPrepared env fs output_dir temp_dir) true
          concurrency maintain_format output_dir (tempDirectoryOf env temp_dir)
          lp).2 = fs' := by
        simpa using congrArg Prod.snd hrun
      rw [← hfs]
      cases output_dir with
      | none =>
        rw [zeroxCore_snd_none,
          if_pos (by rw [Bool.true_and]; exact fsPrepared_contains env fs none temp_dir)]
        exact rmtree_self_not_mem _ _
      | some d =>
        rw [zeroxCore_snd_some,
          if_pos (by rw [Bool.true_and, writeFile_dirs]
                     exact fsPrepared_contains env fs (some d) temp_dir)]
        exact rmtree_self_not_mem _ _

/-- C9 witness: on the concrete batched run over `envW` with cleanup on, the
temporary directory is absent from the final state. -/
theorem C9_cleanup_removes_temp_directory_witness :
    tempDirectoryOf envW "" ∉ fs0.dirs :=
  C9_cleanup_removes_temp_directory envW fs0 2 "x.pdf" false none "" outW fs0
    (by rfl)

/-- C10: when `file_path` is non-empty but the download step yields no local
path, `zerox` raises `FileUnavailable` and the working temporary directory —
created before the download — still exists in the final state, even with
`cleanup = true`: the raise bypasses the cleanup step. -/
theorem C10_download_failure_keeps_temp_directory (env : ZeroxEnv) (fs : Fs)
    (concurrency : Nat) (file_path : String) (maintain_format : Bool)
    (output_dir : Option String) (temp_dir : String)
    (hfp : file_path ≠ "")
    (hdl : env.download_file file_path (tempDirectoryOf env temp_dir) = none) :
    (zerox env fs true concurrency file_path maintain_format output_dir
        temp_dir).1 = .error .FileUnavailable ∧
    tempDirectoryOf env temp_dir ∈
      ((zerox env fs true concurrency file_path maintain_format output_dir
        temp_dir).2).dirs := by
  rw [zerox_download_none env fs true concurrency file_path maintain_format
    output_dir temp_dir hfp hdl]
  exact ⟨rfl, makedirs_mem _ _⟩

/-- C10 witness: on the concrete failing-download environment `envD`, the
error is raised and the temporary directory is left behind. -/
theorem C10_download_failure_keeps_temp_directory_witness :
    (zerox envD fs0 true 2 "x.pdf" false none "").1 = .error .FileUnavailable ∧
    tempDirectoryOf envD "" ∈
      ((zerox envD fs0 true 2 "x.pdf" false none "").2).dirs :=
  C10_download_failure_keeps_temp_directory envD fs0 2 "x.pdf" false none ""
    (by decide) (by rfl)

/-- C1: in every `maintain_format = false` run of `zerox`, for every
concurrency value `C ≥ 1` and every family of per-batch completion orders in
which all dispatched pages settle, the page contents of the returned output
are the per-page results in rasterized page order — the order of the page
image files enumerated by `imagesIn` — not in completion order: the
right-hand side does not depend on the completion orders at all. -/
theorem C1_pages_in_rasterized_order (env : ZeroxEnv) (fs : Fs) (cleanup : Bool)
    (concurrency : Nat) (file_path : String) (output_dir : Option String)
    (temp_dir : String) (lp : String) (out : ZeroxOutput) (fs' : Fs)
    (hC : 1 ≤ concurrency)
    (hfp : file_path ≠ "")
    (hdl : env.download_file file_path (tempDirectoryOf env temp_dir) = some lp)
    (horders : validOrders env.orders
      (chunkList concurrency (imagesIn env (tempDirectoryOf env temp_dir))))
    (hrun : zerox env fs cleanup concurrency file_path false output_dir temp_dir
      = (.ok out, fs')) :
    out.pages.map (fun pg => pg.content) =
      ((imagesIn env (tempDirectoryOf env temp_dir)).map
        (pagePass env.pm 0 0 "")).filterMap (fun r => r.1) := by
  rw [zerox_resolved env fs cleanup concurrency file_path false output_dir
    temp_dir lp hfp hdl] at hrun
  have hout : (zeroxCore env (fsPrepared env fs output_dir temp_dir) cleanup
      concurrency false output_dir (tempDirectoryOf env temp_dir) lp).1 = out := by
    simpa using congrArg Prod.fst hrun
  rw [← hout]
  show (formatPagesFrom 0 (zeroxAgg env (imagesIn env (tempDirectoryOf env temp_dir))
      concurrency false).1).map (fun pg => pg.content) = _
  rw [formatPagesFrom_map_content]
  show (process_pages_in_batches env.pm (imagesIn env (tempDirectoryOf env temp_dir))
      concurrency 0 0 "" env.orders).filterMap (fun r => r.1) = _
  rw [process_pages_in_batches_eq env.pm _ concurrency 0 0 "" env.orders horders]

/-- C1 witness: the concrete batched run over `envW` (concurrency 2, first
batch completing out of order) still lists the pages in image order. -/
theorem C1_pages_in_rasterized_order_witness :
    (1 ≤ 2) ∧
    validOrders envW.orders (chunkList 2 (imagesIn envW (tempDirectoryOf envW ""))) ∧
    outW.pages.map (fun pg => pg.content) =
      ((imagesIn envW (tempDirectoryOf envW "")).map
        (pagePass envW.pm 0 0 "")).filterMap (fun r => r.1) :=
  ⟨by decide, by decide,
   C1_pages_in_rasterized_order envW fs0 true 2 "x.pdf" none "" "Report (Final)!.pdf"
     outW fs0 (by decide) (by decide) (by rfl) (by decide) (by rfl)⟩

/-- C2 counterexample: a one-page document whose page processing returns the
empty string (a legitimate empty model response). The `maintain_format` run
drops the falsy result, so the output has zero pages although rasterization
successfully produced one page image — `len(pages)` differs from the number
of page images. -/
theorem C2_counterexample_empty_page_dropped :
    (zerox envC fs0 true 1 "doc.pdf" true none "").1 =
      Except.ok (ZeroxOutput.mk 0 "doc" 3 4 []) ∧
    (imagesIn envC (tempDirectoryOf envC "")).length = 1 ∧
    (pagesOf (zerox envC fs0 true 1 "doc.pdf" true none "").1).length ≠
      (imagesIn envC (tempDirectoryOf envC "")).length :=
  ⟨by rfl, by rfl, by decide⟩

/-- C2 (amended): for every run of `zerox` that returns, the number of pages
in the output equals the number of per-page results that yielded string
content — in the batched path the `some`-valued results, in the
maintain-format path the non-`None`, non-empty results along the sequential
chain — which can be fewer than the rasterized page images; and the page
numbers of the retained pages form the contiguous sequence `1..N` in
aggregation order. -/
theorem C2_pages_count_and_numbering (env : ZeroxEnv) (fs : Fs) (cleanup : Bool)
    (concurrency : Nat) (file_path : String) (output_dir : Option String)
    (temp_dir : String) (lp : String) (outB outM : ZeroxOutput) (fsB fsM : Fs)
    (hfp : file_path ≠ "")
    (hdl : env.download_file file_path (tempDirectoryOf env temp_dir) = some lp)
    (horders : validOrders env.orders
      (chunkList concurrency (imagesIn env (tempDirectoryOf env temp_dir))))
    (hrunB : zerox env fs cleanup concurrency file_path false output_dir temp_dir
      = (.ok outB, fsB))
    (hrunM : zerox env fs cleanup concurrency file_path true output_dir temp_dir
      = (.ok outM, fsM)) :
    outB.pages.length = ((imagesIn env (tempDirectoryOf env temp_dir)).map
        (pagePass env.pm 0 0 "")).countP (fun r => r.1.isSome) ∧
    outB.pages.map (fun pg => pg.page) = List.range' 1 outB.pages.length ∧
    outM.pages.length = (((maintainContents env.pm
        (imagesIn env (tempDirectoryOf env temp_dir)) "").filterMap id).filter
        (fun s => s != "")).length ∧
    outM.pages.map (fun pg => pg.page) = List.range' 1 outM.pages.length := by
  rw [zerox_resolved env fs cleanup concurrency file_path false output_dir
    temp_dir lp hfp hdl] at hrunB
  rw [zerox_resolved env fs cleanup concurrency file_path true output_dir
    temp_dir lp hfp hdl] at hrunM
  have houtB : (zeroxCore env (fsPrepared env fs output_dir temp_dir) cleanup
      concurrency false output_dir (tempDirectoryOf env temp_dir) lp).1 = outB := by
    simpa using congrArg Prod.fst hrunB
  have houtM : (zeroxCore env (fsPrepared env fs output_dir temp_dir) cleanup
      concurrency true output_dir (tempDirectoryOf env temp_dir) lp).1 = outM := by
    simpa using congrArg Prod.fst hrunM
  rw [← houtB, ← houtM]
  refine ⟨?_, ?_, ?_, ?_⟩
  · show (formatPagesFrom 0 (zeroxAgg env (imagesIn env (tempDirectoryOf env temp_dir))
        concurrency false).1).length = _
    rw [formatPagesFrom_length]
    show ((process_pages_in_batches env.pm (imagesIn env (tempDirectoryOf env temp_dir))
        concurrency 0 0 "" env.orders).filterMap (fun r => r.1)).length = _
    rw [process_pages_in_batches_eq env.pm _ concurrency 0 0 "" env.orders horders,
      length_filterMap_fst]
  · show (formatPagesFrom 0 (zeroxAgg env (imagesIn env (tempDirectoryOf env temp_dir))
        concurrency false).1).map (fun pg => pg.page) =
      List.range' 1 (formatPagesFrom 0 (zeroxAgg env
        (imagesIn env (tempDirectoryOf env temp_dir)) concurrency false).1).length
    rw [formatPagesFrom_map_page, formatPagesFrom_length]
  · show (formatPagesFrom 0 (maintainRun (process_page env.pm)
        (imagesIn env (tempDirectoryOf env temp_dir)) 0 0 "").agg).length = _
    rw [formatPagesFrom_length, maintainRun_agg]
  · show (formatPagesFrom 0 (maintainRun (process_page env.pm)
        (imagesIn env (tempDirectoryOf env temp_dir)) 0 0 "").agg).map
        (fun pg => pg.page) =
      List.range' 1 (formatPagesFrom 0 (maintainRun (process_page env.pm)
        (imagesIn env (tempDirectoryOf env temp_dir)) 0 0 "").agg).length
    rw [formatPagesFrom_map_page, formatPagesFrom_length]

/-- C2 witness: the concrete batched and sequential runs over `envW`, whose
three pages all yield content: three pages numbered 1, 2, 3. -/
theorem C2_pages_count_and_numbering_witness :
    outW.pages.length = ((imagesIn envW (tempDirectoryOf envW "")).map
        (pagePass envW.pm 0 0 "")).countP (fun r => r.1.isSome) ∧
    outW.pages.map (fun pg => pg.page) = List.range' 1 outW.pages.length ∧
    outWM.pages.length = (((maintainContents envW.pm
        (imagesIn envW (tempDirectoryOf envW "")) "").filterMap id).filter
        (fun s => s != "")).length ∧
    outWM.pages.map (fun pg => pg.page) = List.range' 1 outWM.pages.length :=
  C2_pages_count_and_numbering envW fs0 true 2 "x.pdf" none ""
    "Report (Final)!.pdf" outW outWM fs0 fs0
    (by decide) (by rfl) (by decide) (by rfl) (by rfl)

/-- C4: for every run of `zerox` that returns, the `input_tokens` total of
the output equals the sum of the per-page input token counts (and likewise
for `output_tokens`), in both the batched and the maintain-format paths; a
zero-page run therefore totals 0 (the sums over an empty image list). -/
theorem C4_token_totals_additive (env : ZeroxEnv) (fs : Fs) (cleanup : Bool)
    (concurrency : Nat) (file_path : String) (output_dir : Option String)
    (temp_dir : String) (lp : String) (outB outM : ZeroxOutput) (fsB fsM : Fs)
    (hfp : file_path ≠ "")
    (hdl : env.download_file file_path (tempDirectoryOf env temp_dir) = some lp)
    (horders : validOrders env.orders
      (chunkList concurrency (imagesIn env (tempDirectoryOf env temp_dir))))
    (hrunB : zerox env fs cleanup concurrency file_path false output_dir temp_dir
      = (.ok outB, fsB))
    (hrunM : zerox env fs cleanup concurrency file_path true output_dir temp_dir
      = (.ok outM, fsM)) :
    outB.input_tokens = ((imagesIn env (tempDirectoryOf env temp_dir)).map
        (fun img => (pagePass env.pm 0 0 "" img).2.1)).sum ∧
    outB.output_tokens = ((imagesIn env (tempDirectoryOf env temp_dir)).map
        (fun img => (pagePass env.pm 0 0 "" img).2.2)).sum ∧
    outM.input_tokens = ((maintainPagesTok env.pm
        (imagesIn env (tempDirectoryOf env temp_dir)) "").map Prod.fst).sum ∧
    outM.output_tokens = ((maintainPagesTok env.pm
        (imagesIn env (tempDirectoryOf env temp_dir)) "").map Prod.snd).sum := by
  rw [zerox_resolved env fs cleanup concurrency file_path false output_dir
    temp_dir lp hfp hdl] at hrunB
  rw [zerox_resolved env fs cleanup concurrency file_path true output_dir
    temp_dir lp hfp hdl] at hrunM
  have houtB : (zeroxCore env (fsPrepared env fs output_dir temp_dir) cleanup
      concurrency false output_dir (tempDirectoryOf env temp_dir) lp).1 = outB := by
    simpa using congrArg Prod.fst hrunB
  have houtM : (zeroxCore env (fsPrepared env fs output_dir temp_dir) cleanup
      concurrency true output_dir (tempDirectoryOf env temp_dir) lp).1 = outM := by
    simpa using congrArg Prod.fst hrunM
  rw [← houtB, ← houtM]
  refine ⟨?_, ?_, ?_, ?_⟩
  · show 0 + ((process_pages_in_batches env.pm
        (imagesIn env (tempDirectoryOf env temp_dir)) concurrency 0 0 ""
        env.orders).map (fun r => r.2.1)).sum = _
    rw [process_pages_in_batches_eq env.pm _ concurrency 0 0 "" env.orders horders,
      Nat.zero_add, List.map_map]
    rfl
  · show 0 + ((process_pages_in_batches env.pm
        (imagesIn env (tempDirectoryOf env temp_dir)) concurrency 0 0 ""
        env.orders).map (fun r => r.2.2)).sum = _
    rw [process_pages_in_batches_eq env.pm _ concurrency 0 0 "" env.orders horders,
      Nat.zero_add, List.map_map]
    rfl
  · show (maintainRun (process_page env.pm)
        (imagesIn env (tempDirectoryOf env temp_dir)) 0 0 "").inTok = _
    rw [(maintainRun_tok env.pm (imagesIn env (tempDirectoryOf env temp_dir)) 0 0 "").1,
      Nat.zero_add]
  · show (maintainRun (process_page env.pm)
        (imagesIn env (tempDirectoryOf env temp_dir)) 0 0 "").outTok = _
    rw [(maintainRun_tok env.pm (imagesIn env (tempDirectoryOf env temp_dir)) 0 0 "").2,
      Nat.zero_add]

/-- C4 witness: the zero-page runs over `envE` total 0 input and 0 output
tokens in both modes, matching the (empty) per-page sums. -/
theorem C4_token_totals_additive_witness :
    outE.input_tokens = ((imagesIn envE (tempDirectoryOf envE "")).map
        (fun img => (pagePass envE.pm 0 0 "" img).2.1)).sum ∧
    outE.output_tokens = ((imagesIn envE (tempDirectoryOf envE "")).map
        (fun img => (pagePass envE.pm 0 0 "" img).2.2)).sum ∧
    outE.input_tokens = ((maintainPagesTok envE.pm
        (imagesIn envE (tempDirectoryOf envE "")) "").map Prod.fst).sum ∧
    outE.output_tokens = ((maintainPagesTok envE.pm
        (imagesIn envE (tempDirectoryOf envE "")) "").map Prod.snd).sum :=
  C4_token_totals_additive envE fs0 true 1 "doc.pdf" none "" "doc.pdf"
    outE outE fs0 fs0 (by decide) (by rfl) (by decide) (by rfl) (by rfl)

/-- C5: for every run that persists output, the sanitized document name in
the returned output equals the per-character sanitisation of the base file
name (extension stripped): the sanitized name's characters are exactly the
base name's characters mapped through `sanitizeChar`, which keeps an
alphanumeric character lowercased and replaces any other character by the
single fixed placeholder `'_'`; the persisted file's name is built from the
same sanitized name. -/
theorem C5_sanitized_name_per_character (env : ZeroxEnv) (fs : Fs)
    (cleanup : Bool) (concurrency : Nat) (file_path : String)
    (maintain_format : Bool) (temp_dir d lp : String) (out : ZeroxOutput) (fs' : Fs)
    (hfp : file_path ≠ "")
    (hdl : env.download_file file_path (tempDirectoryOf env temp_dir) = some lp)
    (hrun : zerox env fs cleanup concurrency file_path maintain_format (some d)
      temp_dir = (.ok out, fs'))
    (hsep : underOrEq (tempDirectoryOf env temp_dir)
      (d ++ "/" ++ sanitize (splitextRoot (basename lp)) ++ ".md") = false) :
    out.file_name = sanitize (splitextRoot (basename lp)) ∧
    (sanitize (splitextRoot (basename lp))).data =
      (splitextRoot (basename lp)).data.map sanitizeChar ∧
    sanitizeChar = (fun ch => if ch.isAlphanum then ch.toLower else '_') ∧
    fs'.files.lookup (d ++ "/" ++ sanitize (splitextRoot (basename lp)) ++ ".md") =
      some (joinSep "\n\n" (zeroxAgg env
        (imagesIn env (tempDirectoryOf env temp_dir)) concurrency
        maintain_format).1) := by
  have hfs : (zerox env fs cleanup concurrency file_path maintain_format (some d)
      temp_dir).2 = fs' := congrArg Prod.snd hrun
  refine ⟨?_, rfl, rfl, ?_⟩
  · rw [zerox_resolved env fs cleanup concurrency file_path maintain_format
      (some d) temp_dir lp hfp hdl] at hrun
    have hout : (zeroxCore env (fsPrepared env fs (some d) temp_dir) cleanup
        concurrency maintain_format (some d) (tempDirectoryOf env temp_dir)
        lp).1 = out := by
      simpa using congrArg Prod.fst hrun
    rw [← hout]
    rfl
  · rw [← hfs]
    exact (zerox_persisted_file env fs cleanup concurrency file_path
      maintain_format temp_dir d lp hfp hdl hsep).1

/-- C5 witness: the concrete run over `envW` with document name
`Report (Final)!.pdf` and `output_dir = "out"`: the sanitized name is
`report__final__` and the persisted file is `out/report__final__.md`. -/
theorem C5_sanitized_name_per_character_witness :
    outW.file_name = sanitize (splitextRoot (basename "Report (Final)!.pdf")) ∧
    (sanitize (splitextRoot (basename "Report (Final)!.pdf"))).data =
      (splitextRoot (basename "Report (Final)!.pdf")).data.map sanitizeChar ∧
    sanitizeChar = (fun ch => if ch.isAlphanum then ch.toLower else '_') ∧
    fsOutW.files.lookup ("out" ++ "/" ++
        sanitize (splitextRoot (basename "Report (Final)!.pdf")) ++ ".md") =
      some (joinSep "\n\n" (zeroxAgg envW
        (imagesIn envW (tempDirectoryOf envW "")) 2 false).1) :=
  C5_sanitized_name_per_character envW fs0 true 2 "x.pdf" false "" "out"
    "Report (Final)!.pdf" outW fsOutW (by decide) (by rfl) (by rfl) (by decide)

/-- C8: persisting is an overwrite at the fixed path
`<output_dir>/<sanitized_name>.md`: after one run the filesystem holds the
joined page markdown under exactly one entry at that path, and running the
same document into the same output directory a second time leaves the same
single entry with the same final content — no duplicates. -/
theorem C8_persist_overwrite_idempotent (env : ZeroxEnv) (fs : Fs)
    (cleanup : Bool) (concurrency : Nat) (file_path : String)
    (maintain_format : Bool) (temp_dir d lp : String)
    (hfp : file_path ≠ "")
    (hdl : env.download_file file_path (tempDirectoryOf env temp_dir) = some lp)
    (hsep : underOrEq (tempDirectoryOf env temp_dir)
      (d ++ "/" ++ sanitize (splitextRoot (basename lp)) ++ ".md") = false) :
    ((zerox env fs cleanup concurrency file_path maintain_format (some d)
        temp_dir).2).files.lookup
        (d ++ "/" ++ sanitize (splitextRoot (basename lp)) ++ ".md") =
      some (joinSep "\n\n" (zeroxAgg env
        (imagesIn env (tempDirectoryOf env temp_dir)) concurrency
        maintain_format).1) ∧
    ((zerox env fs cleanup concurrency file_path maintain_format (some d)
        temp_dir).2).files.countP
        (fun kv => kv.1 == d ++ "/" ++ sanitize (splitextRoot (basename lp)) ++ ".md") = 1 ∧
    ((zerox env ((zerox env fs cleanup concurrency file_path maintain_format
        (some d) temp_dir).2) cleanup concurrency file_path maintain_format
        (some d) temp_dir).2).files.lookup
        (d ++ "/" ++ sanitize (splitextRoot (basename lp)) ++ ".md") =
      some (joinSep "\n\n" (zeroxAgg env
        (imagesIn env (tempDirectoryOf env temp_dir)) concurrency
        maintain_format).1) ∧
    ((zerox env ((zerox env fs cleanup concurrency file_path maintain_format
        (some d) temp_dir).2) cleanup concurrency file_path maintain_format
        (some d) temp_dir).2).files.countP
        (fun kv => kv.1 == d ++ "/" ++ sanitize (splitextRoot (basename lp)) ++ ".md") = 1 := by
  obtain ⟨h1l, h1c⟩ := zerox_persisted_file env fs cleanup concurrency file_path
    maintain_format temp_dir d lp hfp hdl hsep
  obtain ⟨h2l, h2c⟩ := zerox_persisted_file env
    ((zerox env fs cleanup concurrency file_path maintain_format (some d)
      temp_dir).2) cleanup concurrency file_path maintain_format temp_dir d lp
    hfp hdl hsep
  exact ⟨h1l, h1c, h2l, h2c⟩

/-- C8 witness: running the concrete `envW` document into `out/` twice
leaves exactly one `out/report__final__.md` with the final joined content. -/
theorem C8_persist_overwrite_idempotent_witness :
    ((zerox envW fs0 true 2 "x.pdf" false (some "out") "").2).files.lookup
        ("out" ++ "/" ++ sanitize (splitextRoot (basename "Report (Final)!.pdf")) ++ ".md") =
      some (joinSep "\n\n" (zeroxAgg envW
        (imagesIn envW (tempDirectoryOf envW "")) 2 false).1) ∧
    ((zerox envW fs0 true 2 "x.pdf" false (some "out") "").2).files.countP
        (fun kv => kv.1 == "out" ++ "/" ++
          sanitize (splitextRoot (basename "Report (Final)!.pdf")) ++ ".md") = 1 ∧
    ((zerox envW ((zerox envW fs0 true 2 "x.pdf" false (some "out") "").2) true 2
        "x.pdf" false (some "out") "").2).files.lookup
        ("out" ++ "/" ++ sanitize (splitextRoot (basename "Report (Final)!.pdf")) ++ ".md") =
      some (joinSep "\n\n" (zeroxAgg envW
        (imagesIn envW (tempDirectoryOf envW "")) 2 false).1) ∧
    ((zerox envW ((zerox envW fs0 true 2 "x.pdf" false (some "out") "").2) true 2
        "x.pdf" false (some "out") "").2).files.countP
        (fun kv => kv.1 == "out" ++ "/" ++
          sanitize (splitextRoot (basename "Report (Final)!.pdf")) ++ ".md") = 1 :=
  C8_persist_overwrite_idempotent envW fs0 true 2 "x.pdf" false "" "out"
    "Report (Final)!.pdf" (by decide) (by rfl) (by decide)

end Zerox
